import Mathlib

/-!
Shallow embedding of the pattern-matching core of `sea_ice_drift`
(`sea_ice_drift/pmlib.py` and the parts of `sea_ice_drift/lib.py` it uses).

Conventions of the embedding:

* Python/numpy floats are modelled as `ℚ`; the NaN sentinel is modelled by
  `Option ℚ` (`none` = NaN).  numpy comparisons involving NaN are false, and
  arithmetic propagates NaN; the helpers below implement exactly that.
* 2D numpy arrays are `Mat` (shape plus an entry function); flat arrays are
  `List`s.
* External library collaborators (`cv2.matchTemplate`, `scipy`'s rotation,
  distance transform and gaussian filter, `numpy`'s `hypot`/`median`/`std`,
  and the Nansat coordinate transforms) are not code of this repository;
  they are abstracted as oracle fields of the `Libs` / `Img` structures,
  invoked at exactly the call sites where the source invokes them.
  Two repository functions whose bodies consist of trigonometry and such
  library calls (`get_rotated_template`, `get_hessian`, `get_initial_rotation`)
  are likewise represented by oracles: every claim treats their results as
  opaque data, and their numeric content (cos/sin, sqrt) has no exact
  rational embedding.
* A Python tuple returned by `rotate_and_match` is a `List PyObj`, so that
  the arity of the returned tuple — which matters, because tuple unpacking
  raises `ValueError` on an arity mismatch — is part of the model.
* Exceptions are modelled with `Except PyErr`.
-/

/-- Errors a per-point task can raise: `ValueError` (tuple unpacking of the
wrong arity, `int(nan)`), `NameError` (use of a never-assigned variable). -/
inductive PyErr where
  | valueError : PyErr
  | nameError : PyErr
deriving DecidableEq

/-- Truncation toward zero, as Python's `int(...)` and numpy `astype` do. -/
def int_trunc (q : ℚ) : ℤ :=
  if q < 0 then ⌈q⌉ else ⌊q⌋

/-- Python 3 `round`: round half to even. -/
def py_round (q : ℚ) : ℤ :=
  if q - ⌊q⌋ < 1/2 then ⌊q⌋
  else if 1/2 < q - ⌊q⌋ then ⌊q⌋ + 1
  else if ⌊q⌋ % 2 = 0 then ⌊q⌋ else ⌊q⌋ + 1

/-- Wrap an integer into the `int16` range, as numpy's modular cast does. -/
def wrap16 (z : ℤ) : ℤ :=
  (z + 32768) % 65536 - 32768

/-- numpy `astype(np.int16)` of a float: truncate toward zero, wrap mod 2^16. -/
def py_int16 (q : ℚ) : ℤ :=
  wrap16 (int_trunc q)

/-- numpy `np.uint16(...)` of a float: truncate toward zero, reduce mod 2^16. -/
def py_uint16 (q : ℚ) : ℤ :=
  (int_trunc q) % 65536

/-- NaN-propagating lift of a binary float operation. -/
def liftNaN2 (f : ℚ → ℚ → ℚ) : Option ℚ → Option ℚ → Option ℚ
  | some a, some b => some (f a b)
  | _, _ => none

/-- NaN-propagating lift of a paired coordinate transform. -/
def liftPair (f : ℚ → ℚ → ℚ × ℚ) : Option ℚ → Option ℚ → Option ℚ × Option ℚ
  | some a, some b => (some (f a b).1, some (f a b).2)
  | _, _ => (none, none)

/-- NaN-propagating subtraction. -/
def oSub (a b : Option ℚ) : Option ℚ := liftNaN2 (· - ·) a b

/-- NaN-propagating addition. -/
def oAdd (a b : Option ℚ) : Option ℚ := liftNaN2 (· + ·) a b

/-- numpy `a > c` on a possibly-NaN left operand: false on NaN. -/
def nanGt (a : Option ℚ) (c : ℚ) : Bool :=
  match a with
  | some q => decide (c < q)
  | none => false

/-- numpy `a < c` on a possibly-NaN left operand: false on NaN. -/
def nanLt (a : Option ℚ) (c : ℚ) : Bool :=
  match a with
  | some q => decide (q < c)
  | none => false

/-- A 2D numpy array: shape plus entry function (row, column). -/
structure Mat where
  rows : ℕ
  cols : ℕ
  entry : ℕ → ℕ → ℚ

/-- Row-major flattening of a matrix. -/
def Mat.flat (m : Mat) : List ℚ :=
  (List.range (m.rows * m.cols)).map (fun k => m.entry (k / m.cols) (k % m.cols))

/-- numpy `.max()` over all entries (junk value 0 on an empty array, where
numpy raises instead; never reached on the paths the claims exercise). -/
def Mat.maxVal (m : Mat) : ℚ :=
  match m.flat with
  | [] => 0
  | a :: l => l.foldl max a

/-- Index of the first maximal element of a list, as numpy `argmax`:
a later element replaces the current best only if strictly greater. -/
def fmiAux : List ℚ → ℕ → ℕ → ℚ → ℕ
  | [], _, bi, _ => bi
  | a :: rest, i, bi, bv =>
      if bv < a then fmiAux rest (i + 1) i a else fmiAux rest (i + 1) bi bv

/-- numpy `np.argmax` over the row-major flattening. -/
def np_argmax (m : Mat) : ℕ :=
  match m.flat with
  | [] => 0
  | a :: rest => fmiAux rest 1 0 a

/-- numpy `np.unravel_index` of a flat index for the shape of `m`. -/
def np_unravel_index (k : ℕ) (m : Mat) : ℕ × ℕ :=
  (k / m.cols, k % m.cols)

/-- numpy `astype(np.uint8)`: truncate toward zero and reduce mod 2^8. -/
def Mat.astype_uint8 (m : Mat) : Mat :=
  ⟨m.rows, m.cols, fun i j => ((int_trunc (m.entry i j)) % 256 : ℤ)⟩

/-- Normalize one Python slice endpoint for a dimension of length `len`. -/
def pySliceIdx (len : ℕ) (i : ℤ) : ℕ :=
  (max 0 (min (if i < 0 then i + len else i) len)).toNat

/-- Python 2D slicing `m[r1:r2, c1:c2]` with Python's clamping semantics. -/
def Mat.slice (m : Mat) (r1 r2 c1 c2 : ℤ) : Mat :=
  let rs := pySliceIdx m.rows r1
  let re := pySliceIdx m.rows r2
  let cs := pySliceIdx m.cols c1
  let ce := pySliceIdx m.cols c2
  ⟨re - rs, ce - cs, fun i j => m.entry (rs + i) (cs + j)⟩

/-- A boolean 2D array (the keypoint seed raster). -/
structure BMat where
  rows : ℕ
  cols : ℕ
  entry : ℕ → ℕ → Bool

/-- A geo-referenced image (Nansat object): its raster band `n[1]` plus the
pixel→geographic and geographic→pixel coordinate transforms
(`transform_points` without / with the inverse flag). -/
structure Img where
  mat : Mat
  pix2geo : ℚ → ℚ → ℚ × ℚ
  geo2pix : ℚ → ℚ → ℚ × ℚ

/-- `n.shape()[0]`. -/
def Img.rows (n : Img) : ℕ := n.mat.rows

/-- `n.shape()[1]`. -/
def Img.cols (n : Img) : ℕ := n.mat.cols

/-- Oracles for the external library collaborators and for the three
trigonometry-based repository helpers (see the file comment).  Field names
follow the source functions they stand for. -/
structure Libs where
  /-- `x2y2_interpolation_poly` (imported from `sea_ice_drift.lib`; global
  least-squares polynomial fit, defined values everywhere). -/
  interp_poly : List ℚ → List ℚ → List ℚ → List ℚ → List ℚ → List ℚ →
    List ℚ × List ℚ
  /-- `x2y2_interpolation_near` (imported from `sea_ice_drift.lib`;
  scattered-data `griddata` interpolation, NaN outside the convex hull). -/
  interp_near : List ℚ → List ℚ → List ℚ → List ℚ → List ℚ → List ℚ →
    List (Option ℚ) × List (Option ℚ)
  /-- `scipy.ndimage.distance_transform_edt` on the negated seed raster. -/
  edt : BMat → Mat
  /-- `np.hypot`. -/
  np_hypot : ℚ → ℚ → ℚ
  /-- `get_rotated_template(img, r, c, size, angle)` (pmlib lines 59-92). -/
  get_rotated_template : Mat → ℚ → ℚ → ℕ → ℚ → Mat
  /-- the injected `template_matcher` (default `cv2.matchTemplate`),
  called as `template_matcher(image, template, mtype)`. -/
  matcher : Mat → Mat → ℤ → Mat
  /-- `get_hessian(ccm, **kwargs)` (pmlib lines 33-56). -/
  get_hessian : Mat → Mat
  /-- `np.median`. -/
  np_median : Mat → ℚ
  /-- `np.std`. -/
  np_std : Mat → ℚ
  /-- `get_initial_rotation(n1, n2)` (pmlib lines 112-120). -/
  get_initial_rotation : Img → Img → ℚ
  /-- `d.transform_points(lon, lat, 1)` for the fixed `Domain` built in
  `get_drift_vectors` (lib line 315). -/
  domain_geo2pix : ℚ → ℚ → ℚ × ℚ

/-- An element of a Python tuple returned by `rotate_and_match`: a float
(possibly NaN) or a 2D array. -/
inductive PyObj where
  | num : Option ℚ → PyObj
  | arr : Mat → PyObj

/-- The float payload of a tuple element (an array has none; on the paths
exercised the first five elements are always floats). -/
def PyObj.asNum : PyObj → Option ℚ
  | num o => o
  | arr _ => none

/-- Python float division: numpy turns division by zero into inf/NaN; both
are collapsed to the invalid sentinel here (only reachable with
`mcc_norm=True`, which no claim exercises). -/
def pyDiv (a b : ℚ) : Option ℚ :=
  if b = 0 then none else some (a / b)

/-- The running best of the angle loop in `rotate_and_match`:
`best_a, best_r, best_result, best_template, best_ij`. -/
structure Best where
  a : ℚ
  r : ℚ
  res : Mat
  tmpl : Mat
  ij : ℕ × ℕ

/-- The 7-tuple built after the angle loop (pmlib lines 168-175):
`dx, dy, best_a, best_r, best_h, best_result, best_template`.
`tmpl` is the template of the *last* loop iteration (the Python loop
variable), whose shape lines 169-170 use. -/
def ram_out (L : Libs) (image : Mat) (mcc_norm : Bool) (b : Best) (tmpl : Mat) :
    List PyObj :=
  let best_h := (L.get_hessian b.res).entry b.ij.1 b.ij.2
  let dy : ℚ := (b.ij.1 : ℚ) - (((image.rows : ℤ) - (tmpl.rows : ℤ) : ℤ) : ℚ) / 2
  let dx : ℚ := (b.ij.2 : ℚ) - (((image.cols : ℤ) - (tmpl.cols : ℤ) : ℤ) : ℚ) / 2
  let rOut : Option ℚ :=
    if mcc_norm then pyDiv (b.r - L.np_median b.res) (L.np_std b.res)
    else some b.r
  [PyObj.num (some dx), PyObj.num (some dy), PyObj.num (some b.a),
   PyObj.num rOut, PyObj.num best_h, PyObj.arr b.res, PyObj.arr b.tmpl]

/-- The early return of `rotate_and_match` (pmlib line 156) when a rotated
template is smaller than the requested size: a tuple of SIX NaNs (the
success path returns SEVEN values). -/
def ram_fail : List PyObj :=
  List.replicate 6 (PyObj.num none)

/-- The loop of `rotate_and_match` (pmlib lines 152-166).  `best = none`
models the state where `best_r = -inf` and `best_a` etc. are unassigned:
since every real number exceeds `-inf`, the first processed angle always
becomes the best, so `best_r > -inf` exactly when the other best-variables
are assigned.  `lastT` is the Python loop variable `template`. -/
def ram_loop (L : Libs) (img1 : Mat) (x y : ℚ) (img_size : ℕ) (image : Mat)
    (alpha0 : ℚ) (mtype : ℤ) (mcc_norm : Bool) :
    List ℚ → Option Best → Option Mat → Except PyErr (List PyObj)
  | [], some b, some tmpl => .ok (ram_out L image mcc_norm b tmpl)
  | [], _, _ => .error .nameError
  | angle :: rest, best, _ =>
      let template := L.get_rotated_template img1 y x img_size (angle - alpha0)
      if template.rows < img_size ∨ template.cols < img_size then
        .ok ram_fail
      else
        let result := L.matcher image template.astype_uint8 mtype
        let hit : Bool :=
          match best with
          | none => true
          | some b => decide (b.r < result.maxVal)
        if hit then
          ram_loop L img1 x y img_size image alpha0 mtype mcc_norm rest
            (some ⟨angle, result.maxVal, result, template,
                   np_unravel_index (np_argmax result) result⟩)
            (some template)
        else
          ram_loop L img1 x y img_size image alpha0 mtype mcc_norm rest best
            (some template)

/-- `rotate_and_match(img1, x, y, img_size, image, alpha0, angles, mtype,
..., mcc_norm)` (pmlib lines 122-175). -/
def rotate_and_match (L : Libs) (img1 : Mat) (x y : ℚ) (img_size : ℕ)
    (image : Mat) (alpha0 : ℚ) (angles : List ℚ) (mtype : ℤ)
    (mcc_norm : Bool) : Except PyErr (List PyObj) :=
  ram_loop L img1 x y img_size image alpha0 mtype mcc_norm angles none none

/-- The five per-point scalars `use_mcc` returns: `x2, y2, a, r, h`. -/
structure Res5 where
  x2 : Option ℚ
  y2 : Option ℚ
  a : Option ℚ
  r : Option ℚ
  h : Option ℚ
deriving DecidableEq

/-- `use_mcc(x1p, y1p, x2p, y2p, border, img1, img2, img_size, alpha0)`
(pmlib lines 177-213).  `x2p`, `y2p`, `border` are possibly-NaN first-guess
data; `int(round(nan))` raises ValueError in Python, modelled by the
fallthrough case.  The unpacking
`dx, dy, a, r, h, bestr, bestt = rotate_and_match(...)` requires a 7-tuple
and raises ValueError on any other arity. -/
def use_mcc (L : Libs) (x1p y1p : ℚ) (x2po y2po bordero : Option ℚ)
    (img1 img2 : Mat) (img_size : ℕ) (alpha0 : ℚ) (angles : List ℚ)
    (mtype : ℤ) (mcc_norm : Bool) : Except PyErr Res5 :=
  match x2po, y2po, bordero with
  | some x2pq, some y2pq, some border =>
      let x2p : ℤ := py_round x2pq
      let y2p : ℤ := py_round y2pq
      let hws : ℕ := img_size / 2
      let image := img2.slice
        (int_trunc ((y2p : ℚ) - hws - border)) (int_trunc ((y2p : ℚ) + hws + border + 1))
        (int_trunc ((x2p : ℚ) - hws - border)) (int_trunc ((x2p : ℚ) + hws + border + 1))
      match rotate_and_match L img1 x1p y1p img_size image alpha0 angles mtype mcc_norm with
      | .error e => .error e
      | .ok vals =>
          match vals with
          | [dx, dy, a, r, h, _, _] =>
              .ok ⟨(dx.asNum).map ((x2p : ℚ) + ·), (dy.asNum).map ((y2p : ℚ) + ·),
                   a.asNum, r.asNum, h.asNum⟩
          | _ => .error .valueError
  | _, _, _ => .error .valueError

/-- The keypoint seed raster built in `get_distance_to_nearest_keypoint`
(pmlib lines 105-106): `seed[np.uint16(y1), np.uint16(x1)] = True`. -/
def keypoint_seed (x1 y1 : List ℚ) (shape : ℕ × ℕ) : BMat :=
  ⟨shape.1, shape.2, fun r c =>
    (y1.zip x1).any (fun p => py_uint16 p.1 == (r : ℤ) && py_uint16 p.2 == (c : ℤ))⟩

/-- Elementwise negation `~seed`. -/
def BMat.not (b : BMat) : BMat :=
  ⟨b.rows, b.cols, fun r c => !(b.entry r c)⟩

/-- `get_distance_to_nearest_keypoint(x1, y1, shape)` (pmlib lines 94-110):
the Euclidean distance transform of the negated keypoint seed raster. -/
def get_distance_to_nearest_keypoint (L : Libs) (x1 y1 : List ℚ)
    (shape : ℕ × ℕ) : Mat :=
  L.edt (keypoint_seed x1 y1 shape).not

/-- The `np.uint16`-cast keypoint pixel positions `(row, col)` that are set
in the seed raster. -/
def keyPixels (x1 y1 : List ℚ) : List (ℤ × ℤ) :=
  (y1.zip x1).map (fun p => (py_uint16 p.1, py_uint16 p.2))

/-- Minimum over `pts` of the squared Euclidean distance to `(r, c)`
(junk value 0 for an empty keypoint list, where the distance transform
would be infinite everywhere). -/
def sqDistMin (pts : List (ℤ × ℤ)) (r c : ℤ) : ℤ :=
  match pts with
  | [] => 0
  | p :: rest =>
      rest.foldl (fun m q => min m ((r - q.1) ^ 2 + (c - q.2) ^ 2))
        ((r - p.1) ^ 2 + (c - p.2) ^ 2)

/-- Characterization of `scipy.ndimage.distance_transform_edt` on the negated
seed of `(x1, y1)`: every entry is the (nonnegative) Euclidean distance to
the nearest seed pixel, stated via its square to stay in `ℚ`. -/
def isEDT (x1 y1 : List ℚ) (shape : ℕ × ℕ) (M : Mat) : Prop :=
  M.rows = shape.1 ∧ M.cols = shape.2 ∧
  ∀ r < shape.1, ∀ c < shape.2,
    0 ≤ M.entry r c ∧
    (M.entry r c) ^ 2 = (sqDistMin (keyPixels x1 y1) (r : ℤ) (c : ℤ) : ℚ)

/-- The `old_border` (distance-policy) border vector of `prepare_first_guess`
(pmlib lines 297-304): initialize every entry to `max_border`, then overwrite
the entries whose query point lies inside image1 with the distance image
sampled at the `astype(np.int16)`-cast (i.e. truncated) pixel position. -/
def old_border_vec (L : Libs) (x1 y1 : List ℚ) (shape : ℕ × ℕ)
    (x1_dst y1_dst : List ℚ) (max_border : ℚ) : List (Option ℚ) :=
  let bimg := get_distance_to_nearest_keypoint L x1 y1 shape
  (List.range x1_dst.length).map (fun i =>
    let xd := x1_dst.getD i 0
    let yd := y1_dst.getD i 0
    if 0 ≤ xd ∧ xd < (shape.2 : ℚ) ∧ 0 ≤ yd ∧ yd < (shape.1 : ℚ) then
      some (bimg.entry (py_int16 yd).toNat (py_int16 xd).toNat)
    else some max_border)

/-- The distance-policy border vector as claim C9 words it: the distance
image sampled at the ROUNDED (instead of truncated) pixel position.  This
definition follows the claim's words, for comparison with `old_border_vec`,
which is translated from the source. -/
def old_border_vec_rounded (L : Libs) (x1 y1 : List ℚ) (shape : ℕ × ℕ)
    (x1_dst y1_dst : List ℚ) (max_border : ℚ) : List (Option ℚ) :=
  let bimg := get_distance_to_nearest_keypoint L x1 y1 shape
  (List.range x1_dst.length).map (fun i =>
    let xd := x1_dst.getD i 0
    let yd := y1_dst.getD i 0
    if 0 ≤ xd ∧ xd < (shape.2 : ℚ) ∧ 0 ≤ yd ∧ yd < (shape.1 : ℚ) then
      some (bimg.entry (round yd).toNat (round xd).toNat)
    else some max_border)

/-- `n.transform_points(xs, ys)`: vectorized pixel→geographic transform. -/
def transform_pix2geo (n : Img) (xs ys : List ℚ) : List ℚ × List ℚ :=
  ((List.range xs.length).map (fun i => (n.pix2geo (xs.getD i 0) (ys.getD i 0)).1),
   (List.range xs.length).map (fun i => (n.pix2geo (xs.getD i 0) (ys.getD i 0)).2))

/-- `n.transform_points(lons, lats, 1)`: vectorized geographic→pixel
transform. -/
def transform_geo2pix (n : Img) (lons lats : List ℚ) : List ℚ × List ℚ :=
  ((List.range lons.length).map (fun i => (n.geo2pix (lons.getD i 0) (lats.getD i 0)).1),
   (List.range lons.length).map (fun i => (n.geo2pix (lons.getD i 0) (lats.getD i 0)).2))

/-- Elementwise difference of two float vectors (`x2 - x2tst`). -/
def listSub (xs ys : List ℚ) : List ℚ :=
  (List.range xs.length).map (fun i => xs.getD i 0 - ys.getD i 0)

/-- `prepare_first_guess(x1_dst, y1_dst, n1, x1, y1, n2, x2, y2, img_size,
min_fg_pts, min_border, max_border, old_border)` (pmlib lines 250-327).
Returns `(x2fg, y2fg, border)`.  The two interpolation collaborators are the
`Libs` oracles; `img_size` is accepted and unused, as in the source. -/
def prepare_first_guess (L : Libs) (x1_dst y1_dst : List ℚ) (n1 : Img)
    (x1 y1 : List ℚ) (n2 : Img) (x2 y2 : List ℚ) (img_size : ℕ)
    (min_fg_pts : ℕ) (min_border max_border : ℚ) (old_border : Bool) :
    List (Option ℚ) × List (Option ℚ) × List (Option ℚ) :=
  if min_fg_pts < x1.length then
    let p2 := L.interp_poly x1 y1 x2 y2 x1_dst y1_dst
    let fg := L.interp_near x1 y1 x2 y2 x1_dst y1_dst
    let border0 : List (Option ℚ) :=
      if old_border then
        old_border_vec L x1 y1 (n1.rows, n1.cols) x1_dst y1_dst max_border
      else
        let tst := L.interp_poly x1 y1 x2 y2 x1 y1
        let dif := L.interp_near x1 y1 (listSub x2 tst.1) (listSub y2 tst.2)
          x1_dst y1_dst
        (List.range dif.1.length).map (fun i =>
          liftNaN2 L.np_hypot (dif.1.getD i none) (dif.2.getD i none))
    -- border[border < min_border] = min_border  (NaN compares false)
    let border1 := border0.map (Option.map (fun v =>
      if v < min_border then min_border else v))
    -- border[border > max_border] = max_border
    let border2 := border1.map (Option.map (fun v =>
      if max_border < v then max_border else v))
    -- border[np.isnan(y2fg)] = max_border  (y2fg before polynomial backfill)
    let border3 := (List.range border2.length).map (fun i =>
      if fg.2.getD i none = none then some max_border else border2.getD i none)
    -- x2fg[np.isnan(x2fg)] = x2p2[np.isnan(x2fg)]  and likewise for y
    let x2fg := (List.range fg.1.length).map (fun i =>
      some ((fg.1.getD i none).getD (p2.1.getD i 0)))
    let y2fg := (List.range fg.2.length).map (fun i =>
      some ((fg.2.getD i none).getD (p2.2.getD i 0)))
    (x2fg, y2fg, border3)
  else
    let geo := transform_pix2geo n1 x1_dst y1_dst
    let fgp := transform_geo2pix n2 geo.1 geo.2
    (fgp.1.map some, fgp.2.map some,
     List.replicate x1_dst.length (some (max_border * 2)))

/-- The kwargs bundle forwarded by `pattern_matching` to
`prepare_first_guess` and `rotate_and_match`. -/
structure PMConfig where
  min_fg_pts : ℕ
  min_border : ℚ
  max_border : ℚ
  old_border : Bool
  angles : List ℚ
  mtype : ℤ
  mcc_norm : Bool

/-- A dense 2D query/result grid: shape plus row-major flattened data. -/
structure QGrid where
  rows : ℕ
  cols : ℕ
  data : List ℚ

/-- An output grid: shape plus row-major flattened possibly-NaN data. -/
structure OGrid where
  shape : ℕ × ℕ
  data : List (Option ℚ)
deriving DecidableEq

/-- The seven grids `pattern_matching` returns:
`u, v, a, r, h, lon2_dst, lat2_dst`. -/
structure PMOut where
  u : OGrid
  v : OGrid
  a : OGrid
  r : OGrid
  h : OGrid
  lon2 : OGrid
  lat2 : OGrid
deriving DecidableEq

/-- A grid of the given shape entirely filled with the invalid sentinel
(`np.zeros(dst_shape) + np.nan`). -/
def allNaNGrid (shape : ℕ × ℕ) : OGrid :=
  ⟨shape, List.replicate (shape.1 * shape.2) none⟩

/-- `_fill_gpi`'s masked assignment `y[gpi] = data` (lib lines 323-327):
walk the flat array and the mask together, consuming one element of `data`
at each `True` position. -/
def masked_assign : List (Option ℚ) → List Bool → List (Option ℚ) →
    List (Option ℚ)
  | [], _, _ => []
  | y :: ys, [], ds => y :: masked_assign ys [] ds
  | _ :: ys, true :: gs, d :: ds => d :: masked_assign ys gs ds
  | y :: ys, true :: gs, [] => y :: masked_assign ys gs []
  | y :: ys, false :: gs, ds => y :: masked_assign ys gs ds

/-- `_fill_gpi(shape, gpi, data)` (lib lines 323-327): scatter flat `data`
into an all-NaN grid of the given shape at the mask's `True` positions. -/
def fill_gpi (shape : ℕ × ℕ) (gpi : List Bool) (data : List (Option ℚ)) :
    OGrid :=
  ⟨shape, masked_assign (List.replicate (shape.1 * shape.2) none) gpi data⟩

/-- numpy boolean-mask selection `xs[gpi]`: the elements at `True`
positions, in order. -/
def mask_select {α : Type} : List Bool → List α → List α
  | true :: g, a :: xs => a :: mask_select g xs
  | false :: g, _ :: xs => mask_select g xs
  | _, _ => []

/-- The number of `True` entries of the mask (`len(gpi[gpi])`). -/
def countTrue (g : List Bool) : ℕ :=
  (g.filter id).length

/-- The original (flat-grid) indices at which the mask is `True`, offset by
`k`; `maskIndices g 0` lists the query points that pass the mask. -/
def maskIndices : List Bool → ℕ → List ℕ
  | [], _ => []
  | true :: g, k => k :: maskIndices g (k + 1)
  | false :: g, k => maskIndices g (k + 1)

/-- `multiprocessing.Pool.map(f, range(n))` under an arbitrary completion
order: each worker computes `(i, f i)` independently; `Pool.map` gathers the
results by original input index, regardless of the order (`schedule`) in
which tasks complete.  An index never completed (impossible when `schedule`
is a permutation of `range n`) yields the junk value. -/
def pool_map {α : Type} (junk : α) (f : ℕ → α) (n : ℕ) (schedule : List ℕ) :
    List α :=
  let completed := schedule.map (fun i => (i, f i))
  (List.range n).map (fun i => (completed.lookup i).getD junk)

/-- Propagate the first raised exception of a task list, as the sequential
list comprehension does (with a worker pool the exception that surfaces is
one of the raised ones; which one does not affect the claims, which concern
the returned grids). -/
def seqExcept {α : Type} : List (Except PyErr α) → Except PyErr (List α)
  | [] => .ok []
  | .error e :: _ => .error e
  | .ok a :: rest => (seqExcept rest).map (a :: ·)

/-- The shared per-point data broadcast to the workers by `_init_pool`
(pmlib lines 401-405): the mask-selected first-guess arrays, both images,
the template size and the initial rotation. -/
structure SharedArgs where
  x1d : List ℚ
  y1d : List ℚ
  x2fg : List (Option ℚ)
  y2fg : List (Option ℚ)
  border : List (Option ℚ)
  img1 : Mat
  img2 : Mat
  img_size : ℕ
  alpha0 : ℚ

/-- `use_mcc_mp(i)` (pmlib lines 215-248): run `use_mcc` for point `i` of
the shared data (the progress print is a side effect without bearing on the
result). -/
def use_mcc_mp (L : Libs) (cfg : PMConfig) (S : SharedArgs) (i : ℕ) :
    Except PyErr Res5 :=
  use_mcc L (S.x1d.getD i 0) (S.y1d.getD i 0) (S.x2fg.getD i none)
    (S.y2fg.getD i none) (S.border.getD i none) S.img1 S.img2 S.img_size
    S.alpha0 cfg.angles cfg.mtype cfg.mcc_norm

/-- The query points' pixel coordinates on image1
(`n1.transform_points(lon1_dst.flatten(), lat1_dst.flatten(), 1)`,
pmlib line 379). -/
def pm_dst (n1 : Img) (lon lat : List ℚ) : List ℚ × List ℚ :=
  transform_geo2pix n1 lon lat

/-- The `prepare_first_guess` call of `pattern_matching` (pmlib
lines 381-385). -/
def pm_fg (L : Libs) (cfg : PMConfig) (img_size : ℕ) (n1 : Img)
    (x1 y1 : List ℚ) (n2 : Img) (x2 y2 : List ℚ) (lon lat : List ℚ) :
    List (Option ℚ) × List (Option ℚ) × List (Option ℚ) :=
  let dst := pm_dst n1 lon lat
  prepare_first_guess L dst.1 dst.2 n1 x1 y1 n2 x2 y2 img_size
    cfg.min_fg_pts cfg.min_border cfg.max_border cfg.old_border

/-- The validity mask `gpi` over the flattened query grid (pmlib
lines 388-397): the search window on image2 padded by
`border + img_size/2 + margin`, and the template window on image1 padded by
`hypot(img_size/2, img_size/2) + margin`, must both lie strictly inside
their images.  NaN entries make every comparison false. -/
def compute_gpi (L : Libs) (margin : ℚ) (img_size : ℕ) (n1 n2 : Img)
    (x1_dst y1_dst : List ℚ) (x2fg y2fg border : List (Option ℚ)) :
    List Bool :=
  let hws : ℚ := (img_size : ℚ) / 2
  let hh : ℚ := L.np_hypot hws hws
  (List.range x1_dst.length).map (fun i =>
    let xd := x1_dst.getD i 0
    let yd := y1_dst.getD i 0
    let xf := x2fg.getD i none
    let yf := y2fg.getD i none
    let bd := border.getD i none
    nanGt (oSub (oSub (oSub xf bd) (some hws)) (some margin)) 0 &&
    nanGt (oSub (oSub (oSub yf bd) (some hws)) (some margin)) 0 &&
    nanLt (oAdd (oAdd (oAdd xf bd) (some hws)) (some margin)) (n2.cols : ℚ) &&
    nanLt (oAdd (oAdd (oAdd yf bd) (some hws)) (some margin)) (n2.rows : ℚ) &&
    decide (0 < xd - hh - margin) &&
    decide (0 < yd - hh - margin) &&
    decide (xd + hh + margin < (n1.cols : ℚ)) &&
    decide (yd + hh + margin < (n1.rows : ℚ)))

/-- The validity mask of a `pattern_matching` invocation, from its inputs. -/
def pm_gpi (L : Libs) (cfg : PMConfig) (margin : ℚ) (img_size : ℕ)
    (n1 : Img) (x1 y1 : List ℚ) (n2 : Img) (x2 y2 : List ℚ)
    (lon lat : List ℚ) : List Bool :=
  let dst := pm_dst n1 lon lat
  let fg := pm_fg L cfg img_size n1 x1 y1 n2 x2 y2 lon lat
  compute_gpi L margin img_size n1 n2 dst.1 dst.2 fg.1 fg.2.1 fg.2.2

/-- The original query-grid indices dispatched to the matcher: the points
where the validity mask is `True`. -/
def pm_dispatched (L : Libs) (cfg : PMConfig) (margin : ℚ) (img_size : ℕ)
    (n1 : Img) (x1 y1 : List ℚ) (n2 : Img) (x2 y2 : List ℚ)
    (lon lat : List ℚ) : List ℕ :=
  maskIndices (pm_gpi L cfg margin img_size n1 x1 y1 n2 x2 y2 lon lat) 0

/-- The shared data built by `_init_pool` from the mask-selected arrays
(pmlib lines 407-416). -/
def pm_shared (L : Libs) (cfg : PMConfig) (margin : ℚ) (img_size : ℕ)
    (n1 : Img) (x1 y1 : List ℚ) (n2 : Img) (x2 y2 : List ℚ)
    (lon lat : List ℚ) : SharedArgs :=
  let dst := pm_dst n1 lon lat
  let fg := pm_fg L cfg img_size n1 x1 y1 n2 x2 y2 lon lat
  let gpi := pm_gpi L cfg margin img_size n1 x1 y1 n2 x2 y2 lon lat
  ⟨mask_select gpi dst.1, mask_select gpi dst.2, mask_select gpi fg.1,
   mask_select gpi fg.2.1, mask_select gpi fg.2.2, n1.mat, n2.mat,
   img_size, L.get_initial_rotation n1 n2⟩

/-- `get_drift_vectors(n1, x1, y1, n2, x2, y2)` (lib lines 290-321):
convert matched pixel pairs to lon/lat, project both through the fixed
domain, and return `(x2-x1, y1-y2, lon1, lat1, lon2, lat2)`.  The matched
coordinates `x2, y2` may carry the NaN sentinel, which propagates. -/
def get_drift_vectors (L : Libs) (n1 : Img) (x1 y1 : List ℚ) (n2 : Img)
    (x2 y2 : List (Option ℚ)) :
    List (Option ℚ) × List (Option ℚ) × List ℚ × List ℚ ×
    List (Option ℚ) × List (Option ℚ) :=
  let lonlat1 := transform_pix2geo n1 x1 y1
  let lon2 := (List.range x2.length).map (fun i =>
    (liftPair n2.pix2geo (x2.getD i none) (y2.getD i none)).1)
  let lat2 := (List.range x2.length).map (fun i =>
    (liftPair n2.pix2geo (x2.getD i none) (y2.getD i none)).2)
  let x1d := (List.range lonlat1.1.length).map (fun i =>
    (L.domain_geo2pix (lonlat1.1.getD i 0) (lonlat1.2.getD i 0)).1)
  let y1d := (List.range lonlat1.1.length).map (fun i =>
    (L.domain_geo2pix (lonlat1.1.getD i 0) (lonlat1.2.getD i 0)).2)
  let x2d := (List.range lon2.length).map (fun i =>
    (liftPair L.domain_geo2pix (lon2.getD i none) (lat2.getD i none)).1)
  let y2d := (List.range lon2.length).map (fun i =>
    (liftPair L.domain_geo2pix (lon2.getD i none) (lat2.getD i none)).2)
  ((List.range x2d.length).map (fun i =>
      oSub (x2d.getD i none) (some (x1d.getD i 0))),
   (List.range y2d.length).map (fun i =>
      oSub (some (y1d.getD i 0)) (y2d.getD i none)),
   lonlat1.1, lonlat1.2, lon2, lat2)

/-- `pattern_matching(lon1_dst, lat1_dst, n1, x1, y1, n2, x2, y2, margin,
img_size, threads, **kwargs)` (pmlib lines 329-452).  `schedule` is the
task completion order of the worker pool, irrelevant for `threads = 0`. -/
def pattern_matching (L : Libs) (cfg : PMConfig) (lon1_dst lat1_dst : QGrid)
    (n1 : Img) (x1 y1 : List ℚ) (n2 : Img) (x2 y2 : List ℚ) (margin : ℚ)
    (img_size : ℕ) (threads : ℕ) (schedule : List ℕ) :
    Except PyErr PMOut :=
  let dstShape := (lon1_dst.rows, lon1_dst.cols)
  let dst := pm_dst n1 lon1_dst.data lat1_dst.data
  let gpi := pm_gpi L cfg margin img_size n1 x1 y1 n2 x2 y2
    lon1_dst.data lat1_dst.data
  let S := pm_shared L cfg margin img_size n1 x1 y1 n2 x2 y2
    lon1_dst.data lat1_dst.data
  let nTasks := countTrue gpi
  let task := use_mcc_mp L cfg S
  let results :=
    if threads = 0 then (List.range nTasks).map task
    else pool_map (.error .nameError) task nTasks schedule
  match seqExcept results with
  | .error e => .error e
  | .ok res =>
      if res.length = 0 then
        .ok ⟨allNaNGrid dstShape, allNaNGrid dstShape, allNaNGrid dstShape,
             allNaNGrid dstShape, allNaNGrid dstShape, allNaNGrid dstShape,
             allNaNGrid dstShape⟩
      else
        let x2_dst := res.map Res5.x2
        let y2_dst := res.map Res5.y2
        let a := res.map Res5.a
        let r := res.map Res5.r
        let h := res.map Res5.h
        let dv := get_drift_vectors L n1 (mask_select gpi dst.1)
          (mask_select gpi dst.2) n2 x2_dst y2_dst
        .ok ⟨fill_gpi dstShape gpi dv.1, fill_gpi dstShape gpi dv.2.1,
             fill_gpi dstShape gpi a, fill_gpi dstShape gpi r,
             fill_gpi dstShape gpi h, fill_gpi dstShape gpi dv.2.2.2.2.1,
             fill_gpi dstShape gpi dv.2.2.2.2.2⟩

/-- A 1x1 zero raster used by the concrete instances below. -/
def matW : Mat :=
  ⟨1, 1, fun _ _ => 0⟩

/-- A concrete oracle bundle for evaluating the embedding on closed inputs:
interpolations return zeros of the query length, the distance image stores
the column index, templates come back at full requested size, and the
correlation surface is a 1x1 zero array. -/
def LW : Libs where
  interp_poly := fun _ _ _ _ xd _ => (xd.map (fun _ => 0), xd.map (fun _ => 0))
  interp_near := fun _ _ _ _ xd _ =>
    (xd.map (fun _ => some 0), xd.map (fun _ => some 0))
  edt := fun b => ⟨b.rows, b.cols, fun _ c => (c : ℚ)⟩
  np_hypot := fun a b => a + b
  get_rotated_template := fun _ _ _ s _ => ⟨s, s, fun _ _ => 0⟩
  matcher := fun _ _ _ => ⟨1, 1, fun _ _ => 0⟩
  get_hessian := fun m => m
  np_median := fun _ => 0
  np_std := fun _ => 1
  get_initial_rotation := fun _ _ => 0
  domain_geo2pix := fun a b => (a, b)

/-- The oracle bundle with a template extractor that always returns an empty
crop (a query point too close to the image1 boundary). -/
def LW0 : Libs :=
  { LW with get_rotated_template := fun _ _ _ _ _ => ⟨0, 0, fun _ _ => 0⟩ }

/-- A concrete 1x1 image whose coordinate transforms are the identity. -/
def imgW : Img :=
  ⟨matW, fun a b => (a, b), fun a b => (a, b)⟩

/-- The default kwargs of `pattern_matching`. -/
def cfgW : PMConfig :=
  ⟨5, 20, 50, true, [-3, 0, 3], 0, false⟩

/-- The kwargs with the error-policy border selection (`old_border=False`). -/
def cfgWnew : PMConfig :=
  ⟨5, 20, 50, false, [-3, 0, 3], 0, false⟩

/-- A 1x1 query grid. -/
def gridW : QGrid :=
  ⟨1, 1, [0]⟩

/-- The failure test of the angle loop (pmlib line 155): the rotated crop
returned for this candidate angle is smaller than the requested template
edge length in either dimension. -/
def undersized (L : Libs) (img1 : Mat) (x y : ℚ) (img_size : ℕ)
    (alpha0 angle : ℚ) : Prop :=
  (L.get_rotated_template img1 y x img_size (angle - alpha0)).rows < img_size ∨
  (L.get_rotated_template img1 y x img_size (angle - alpha0)).cols < img_size

instance (L : Libs) (img1 : Mat) (x y : ℚ) (img_size : ℕ) (alpha0 angle : ℚ) :
    Decidable (undersized L img1 x y img_size alpha0 angle) := by
  unfold undersized; infer_instance

/-- The maximal correlation value a candidate angle attains (pmlib
lines 154-161): the `.max()` of the correlation surface of the rotated
template against the search window. -/
def angleScore (L : Libs) (img1 : Mat) (x y : ℚ) (img_size : ℕ) (image : Mat)
    (alpha0 : ℚ) (mtype : ℤ) (angle : ℚ) : ℚ :=
  (L.matcher image
    (L.get_rotated_template img1 y x img_size (angle - alpha0)).astype_uint8
    mtype).maxVal

/-- The Prop-level reading of one entry of the validity mask (pmlib
lines 390-397): the first-guess data carry no NaN and both padded windows
lie strictly inside their images. -/
def window_conditions (L : Libs) (margin : ℚ) (img_size : ℕ) (n1 n2 : Img)
    (xd yd : ℚ) (xf yf bd : Option ℚ) : Prop :=
  ∃ x2v y2v bv, xf = some x2v ∧ yf = some y2v ∧ bd = some bv ∧
    (0 < x2v - bv - (img_size : ℚ) / 2 - margin ∧
     0 < y2v - bv - (img_size : ℚ) / 2 - margin ∧
     x2v + bv + (img_size : ℚ) / 2 + margin < (n2.cols : ℚ) ∧
     y2v + bv + (img_size : ℚ) / 2 + margin < (n2.rows : ℚ) ∧
     0 < xd - L.np_hypot ((img_size : ℚ) / 2) ((img_size : ℚ) / 2) - margin ∧
     0 < yd - L.np_hypot ((img_size : ℚ) / 2) ((img_size : ℚ) / 2) - margin ∧
     xd + L.np_hypot ((img_size : ℚ) / 2) ((img_size : ℚ) / 2) + margin < (n1.cols : ℚ) ∧
     yd + L.np_hypot ((img_size : ℚ) / 2) ((img_size : ℚ) / 2) + margin < (n1.rows : ℚ))

/-- If any candidate angle yields an undersized rotated crop, the angle loop
returns the 6-NaN early-exit tuple, whatever its current state. -/
theorem ram_loop_undersized (L : Libs) (img1 : Mat) (x y : ℚ) (img_size : ℕ)
    (image : Mat) (alpha0 : ℚ) (mtype : ℤ) (mcc_norm : Bool) :
    ∀ (angles : List ℚ) (best : Option Best) (lastT : Option Mat),
    (∃ a ∈ angles, undersized L img1 x y img_size alpha0 a) →
    ram_loop L img1 x y img_size image alpha0 mtype mcc_norm angles best lastT
      = .ok ram_fail := by
  intro angles
  induction angles with
  | nil => intro best lastT h; simp at h
  | cons a rest ih =>
      intro best lastT h
      rw [ram_loop]
      by_cases ha : undersized L img1 x y img_size alpha0 a
      · unfold undersized at ha
        rw [if_pos ha]
      · have hr : ∃ b ∈ rest, undersized L img1 x y img_size alpha0 b := by
          rcases h with ⟨b, hb, hub⟩
          rcases List.mem_cons.mp hb with h1 | h2
          · exact absurd (h1 ▸ hub) ha
          · exact ⟨b, h2, hub⟩
        unfold undersized at ha
        rw [if_neg ha]
        dsimp only
        split
        · exact ih _ _ hr
        · exact ih _ _ hr

/-- Invariant of the angle loop with an assigned best: when no remaining
angle is undersized, the loop ends in the success tuple of a best `b'` that
is either the incoming best (no remaining angle strictly beats it) or the
first remaining angle attaining the strict maximum. -/
theorem ram_loop_run (L : Libs) (img1 : Mat) (x y : ℚ) (img_size : ℕ)
    (image : Mat) (alpha0 : ℚ) (mtype : ℤ) (mcc_norm : Bool) :
    ∀ (rest : List ℚ) (b : Best) (tmpl : Mat),
    (∀ a ∈ rest, ¬ undersized L img1 x y img_size alpha0 a) →
    ∃ b' tmpl',
      ram_loop L img1 x y img_size image alpha0 mtype mcc_norm rest (some b)
        (some tmpl) = .ok (ram_out L image mcc_norm b' tmpl') ∧
      ((b' = b ∧ ∀ a ∈ rest,
          angleScore L img1 x y img_size image alpha0 mtype a ≤ b.r) ∨
       (∃ l₁ A l₂, rest = l₁ ++ A :: l₂ ∧ b'.a = A ∧
          b'.r = angleScore L img1 x y img_size image alpha0 mtype A ∧
          b.r < angleScore L img1 x y img_size image alpha0 mtype A ∧
          (∀ a ∈ l₁, angleScore L img1 x y img_size image alpha0 mtype a <
            angleScore L img1 x y img_size image alpha0 mtype A) ∧
          (∀ a ∈ l₂, angleScore L img1 x y img_size image alpha0 mtype a ≤
            angleScore L img1 x y img_size image alpha0 mtype A))) := by
  intro rest
  induction rest with
  | nil =>
      intro b tmpl _
      exact ⟨b, tmpl, rfl, Or.inl ⟨rfl, by simp⟩⟩
  | cons a rest ih =>
      intro b tmpl h
      have ha : ¬ undersized L img1 x y img_size alpha0 a :=
        h a (List.mem_cons_self a rest)
      have hrest : ∀ a' ∈ rest, ¬ undersized L img1 x y img_size alpha0 a' :=
        fun a' ha' => h a' (List.mem_cons_of_mem a ha')
      rw [ram_loop]
      unfold undersized at ha
      rw [if_neg ha]
      dsimp only
      by_cases hc : b.r < (L.matcher image (L.get_rotated_template img1 y x
        img_size (a - alpha0)).astype_uint8 mtype).maxVal
      · rw [if_pos (by exact decide_eq_true hc)]
        rcases ih ⟨a,
            (L.matcher image (L.get_rotated_template img1 y x img_size
              (a - alpha0)).astype_uint8 mtype).maxVal,
            L.matcher image (L.get_rotated_template img1 y x img_size
              (a - alpha0)).astype_uint8 mtype,
            L.get_rotated_template img1 y x img_size (a - alpha0),
            np_unravel_index (np_argmax (L.matcher image
              (L.get_rotated_template img1 y x img_size
                (a - alpha0)).astype_uint8 mtype))
              (L.matcher image (L.get_rotated_template img1 y x img_size
                (a - alpha0)).astype_uint8 mtype)⟩
          (L.get_rotated_template img1 y x img_size (a - alpha0)) hrest with
          ⟨b', tmpl', heq, hP⟩
        have hc' : b.r < angleScore L img1 x y img_size image alpha0 mtype a := hc
        refine ⟨b', tmpl', heq, ?_⟩
        rcases hP with ⟨hb, hall⟩ | ⟨l₁, A, l₂, hsplit, hA, hr, hlt, h1, h2⟩
        · exact Or.inr ⟨[], a, rest, by simp, by rw [hb], by rw [hb]; rfl,
            hc', by simp, fun a' ha' => hall a' ha'⟩
        · have hlt' : angleScore L img1 x y img_size image alpha0 mtype a <
              angleScore L img1 x y img_size image alpha0 mtype A := hlt
          refine Or.inr ⟨a :: l₁, A, l₂, by rw [hsplit]; simp, hA, hr,
            lt_trans hc' hlt', ?_, h2⟩
          intro a' ha'
          rcases List.mem_cons.mp ha' with h' | h'
          · rw [h']; exact hlt'
          · exact h1 a' h'
      · rw [if_neg (by simp [hc])]
        have hc' : ¬ b.r < angleScore L img1 x y img_size image alpha0 mtype a := hc
        rcases ih b (L.get_rotated_template img1 y x img_size (a - alpha0))
          hrest with ⟨b', tmpl', heq, hP⟩
        refine ⟨b', tmpl', heq, ?_⟩
        rcases hP with ⟨hb, hall⟩ | ⟨l₁, A, l₂, hsplit, hA, hr, hlt, h1, h2⟩
        · refine Or.inl ⟨hb, ?_⟩
          intro a' ha'
          rcases List.mem_cons.mp ha' with h' | h'
          · rw [h']; exact le_of_not_lt hc'
          · exact hall a' h'
        · refine Or.inr ⟨a :: l₁, A, l₂, by rw [hsplit]; simp, hA, hr, hlt,
            ?_, h2⟩
          intro a' ha'
          rcases List.mem_cons.mp ha' with h' | h'
          · rw [h']; exact lt_of_le_of_lt (le_of_not_lt hc') hlt
          · exact h1 a' h'

/-- Position 2 (the reported angle) of the success tuple. -/
theorem ram_out_getD2 (L : Libs) (image : Mat) (mcc_norm : Bool) (b : Best)
    (tmpl : Mat) :
    (ram_out L image mcc_norm b tmpl).getD 2 (PyObj.num none)
      = PyObj.num (some b.a) := rfl

/-- C1: the spec says a per-point matching failure never raises and instead
degrades to the all-NaN sentinel.  The code disagrees: on an undersized
rotated crop, `rotate_and_match` returns a 6-element tuple (pmlib line 156)
which `use_mcc` unpacks into seven variables (pmlib line 207), raising
`ValueError`.  Concrete evaluation of the embedding at a point whose
rotated crop is empty (`LW0`): the per-point task raises instead of
returning NaNs. -/
theorem use_mcc_undersized_raises :
    use_mcc LW0 0 0 (some 0) (some 0) (some 0) matW matW 35 0 [-3, 0, 3] 0
      false = .error .valueError := by
  with_unfolding_all rfl

/-- C3: if some candidate angle yields a rotated crop smaller than the
requested template edge length in either dimension, the whole point fails
with the all-NaN tuple, independently of what the other (earlier or later)
candidate angles would have produced. -/
theorem rotate_and_match_undersized_all_nan (L : Libs) (img1 : Mat)
    (x y : ℚ) (img_size : ℕ) (image : Mat) (alpha0 : ℚ) (angles : List ℚ)
    (mtype : ℤ) (mcc_norm : Bool)
    (h : ∃ a ∈ angles, undersized L img1 x y img_size alpha0 a) :
    rotate_and_match L img1 x y img_size image alpha0 angles mtype mcc_norm
      = .ok (List.replicate 6 (PyObj.num none)) :=
  ram_loop_undersized L img1 x y img_size image alpha0 mtype mcc_norm
    angles none none h

/-- Witness for C3 at a concrete input where every rotated crop is empty. -/
theorem rotate_and_match_undersized_all_nan_w :
    rotate_and_match LW0 matW 0 0 35 matW 0 [-3, 0, 3] 0 false
      = .ok (List.replicate 6 (PyObj.num none)) :=
  rotate_and_match_undersized_all_nan LW0 matW 0 0 35 matW 0 [-3, 0, 3] 0
    false (by with_unfolding_all decide)

/-- C7: with a nonempty candidate-angle list and no undersized crop, the
angle reported in the result tuple (position 2) is the first angle in
iteration order attaining the maximal correlation: every earlier angle
scores strictly less (a tie never replaces the current best), every later
angle scores at most as much. -/
theorem rotate_and_match_first_max (L : Libs) (img1 : Mat) (x y : ℚ)
    (img_size : ℕ) (image : Mat) (alpha0 : ℚ) (angles : List ℚ) (mtype : ℤ)
    (mcc_norm : Bool) (hne : angles ≠ [])
    (hfull : ∀ a ∈ angles, ¬ undersized L img1 x y img_size alpha0 a) :
    ∃ A out,
      rotate_and_match L img1 x y img_size image alpha0 angles mtype mcc_norm
        = .ok out ∧
      out.getD 2 (PyObj.num none) = PyObj.num (some A) ∧
      ∃ l₁ l₂, angles = l₁ ++ A :: l₂ ∧
        (∀ a ∈ l₁, angleScore L img1 x y img_size image alpha0 mtype a <
          angleScore L img1 x y img_size image alpha0 mtype A) ∧
        (∀ a ∈ l₂, angleScore L img1 x y img_size image alpha0 mtype a ≤
          angleScore L img1 x y img_size image alpha0 mtype A) := by
  rcases angles with _ | ⟨a0, rest⟩
  · exact absurd rfl hne
  have ha0 : ¬ undersized L img1 x y img_size alpha0 a0 :=
    hfull a0 (List.mem_cons_self a0 rest)
  have hrest : ∀ a ∈ rest, ¬ undersized L img1 x y img_size alpha0 a :=
    fun a ha => hfull a (List.mem_cons_of_mem a0 ha)
  rw [rotate_and_match, ram_loop]
  unfold undersized at ha0
  rw [if_neg ha0]
  dsimp only
  rw [if_pos rfl]
  rcases ram_loop_run L img1 x y img_size image alpha0 mtype mcc_norm rest
      ⟨a0,
        (L.matcher image (L.get_rotated_template img1 y x img_size
          (a0 - alpha0)).astype_uint8 mtype).maxVal,
        L.matcher image (L.get_rotated_template img1 y x img_size
          (a0 - alpha0)).astype_uint8 mtype,
        L.get_rotated_template img1 y x img_size (a0 - alpha0),
        np_unravel_index (np_argmax (L.matcher image
          (L.get_rotated_template img1 y x img_size
            (a0 - alpha0)).astype_uint8 mtype))
          (L.matcher image (L.get_rotated_template img1 y x img_size
            (a0 - alpha0)).astype_uint8 mtype)⟩
      (L.get_rotated_template img1 y x img_size (a0 - alpha0)) hrest with
      ⟨b', tmpl', heq, hP⟩
  rcases hP with ⟨hb, hall⟩ | ⟨l₁, A, l₂, hsplit, hA, hr, hlt, h1, h2⟩
  · refine ⟨a0, ram_out L image mcc_norm b' tmpl', heq, ?_, [], rest,
      rfl, by simp, ?_⟩
    · rw [ram_out_getD2, hb]
    · intro a ha
      exact hall a ha
  · refine ⟨A, ram_out L image mcc_norm b' tmpl', heq, ?_, a0 :: l₁, l₂,
      by rw [hsplit]; rfl, ?_, h2⟩
    · rw [ram_out_getD2, hA]
    · intro a ha
      rcases List.mem_cons.mp ha with h' | h'
      · rw [h']; exact hlt
      · exact h1 a h'

/-- Witness for C7 at a concrete input with full-size templates. -/
theorem rotate_and_match_first_max_w :
    ∃ A out,
      rotate_and_match LW matW 0 0 35 matW 0 [-3, 0, 3] 0 false = .ok out ∧
      out.getD 2 (PyObj.num none) = PyObj.num (some A) ∧
      ∃ l₁ l₂, ([-3, 0, 3] : List ℚ) = l₁ ++ A :: l₂ ∧
        (∀ a ∈ l₁, angleScore LW matW 0 0 35 matW 0 0 a <
          angleScore LW matW 0 0 35 matW 0 0 A) ∧
        (∀ a ∈ l₂, angleScore LW matW 0 0 35 matW 0 0 a ≤
          angleScore LW matW 0 0 35 matW 0 0 A) :=
  rotate_and_match_first_max LW matW 0 0 35 matW 0 [-3, 0, 3] 0 false
    (by simp) (by with_unfolding_all decide)

/-- `getD` of a tabulated list. -/
theorem getD_range_map {α : Type} (n i : ℕ) (f : ℕ → α) (d : α) (h : i < n) :
    ((List.range n).map f).getD i d = f i := by
  rw [List.getD_eq_getElem?_getD, List.getElem?_eq_getElem (by simpa using h)]
  simp

/-- `getD` through `map`, inside the bounds. -/
theorem getD_map_of_lt {α β : Type} (f : α → β) (l : List α) (i : ℕ)
    (d : α) (d' : β) (h : i < l.length) :
    (l.map f).getD i d' = f (l.getD i d) := by
  rw [List.getD_eq_getElem?_getD, List.getElem?_eq_getElem (by simpa using h)]
  rw [List.getD_eq_getElem?_getD, List.getElem?_eq_getElem h]
  simp

/-- C4: with at most `min_fg_pts` correspondences, `prepare_first_guess`
takes the fallback path: every border entry is `2 × max_border`, and the
first guess of every query point is the direct image1→image2 coordinate
transform of that point (no interpolation). -/
theorem prepare_first_guess_fallback (L : Libs) (x1_dst y1_dst : List ℚ)
    (n1 : Img) (x1 y1 : List ℚ) (n2 : Img) (x2 y2 : List ℚ)
    (img_size min_fg_pts : ℕ) (min_border max_border : ℚ) (old_border : Bool)
    (h : x1.length ≤ min_fg_pts) :
    (prepare_first_guess L x1_dst y1_dst n1 x1 y1 n2 x2 y2 img_size
        min_fg_pts min_border max_border old_border).2.2
      = List.replicate x1_dst.length (some (max_border * 2)) ∧
    ∀ i < x1_dst.length,
      (prepare_first_guess L x1_dst y1_dst n1 x1 y1 n2 x2 y2 img_size
          min_fg_pts min_border max_border old_border).1.getD i none
        = some ((n2.geo2pix (n1.pix2geo (x1_dst.getD i 0) (y1_dst.getD i 0)).1
            (n1.pix2geo (x1_dst.getD i 0) (y1_dst.getD i 0)).2).1) ∧
      (prepare_first_guess L x1_dst y1_dst n1 x1 y1 n2 x2 y2 img_size
          min_fg_pts min_border max_border old_border).2.1.getD i none
        = some ((n2.geo2pix (n1.pix2geo (x1_dst.getD i 0) (y1_dst.getD i 0)).1
            (n1.pix2geo (x1_dst.getD i 0) (y1_dst.getD i 0)).2).2) := by
  have hlt : ¬ min_fg_pts < x1.length := by omega
  rw [prepare_first_guess, if_neg hlt]
  dsimp only
  refine ⟨rfl, ?_⟩
  intro i hi
  have hlen1 : i < (transform_pix2geo n1 x1_dst y1_dst).1.length := by
    simpa [transform_pix2geo] using hi
  constructor
  · rw [transform_geo2pix]
    dsimp only
    rw [List.map_map, getD_range_map _ _ _ _ hlen1]
    dsimp only [Function.comp]
    rw [transform_pix2geo]
    dsimp only
    rw [getD_range_map _ _ _ _ hi, getD_range_map _ _ _ _ hi]
  · rw [transform_geo2pix]
    dsimp only
    rw [List.map_map, getD_range_map _ _ _ _ hlen1]
    dsimp only [Function.comp]
    rw [transform_pix2geo]
    dsimp only
    rw [getD_range_map _ _ _ _ hi, getD_range_map _ _ _ _ hi]

/-- Witness for C4 at a concrete low-correspondence input. -/
theorem prepare_first_guess_fallback_w :
    (prepare_first_guess LW [3] [4] imgW [] [] imgW [] [] 35 5 20 50
        true).2.2 = List.replicate 1 (some (50 * 2)) ∧
    ∀ i < ([3] : List ℚ).length,
      (prepare_first_guess LW [3] [4] imgW [] [] imgW [] [] 35 5 20 50
          true).1.getD i none
        = some ((imgW.geo2pix (imgW.pix2geo (([3] : List ℚ).getD i 0)
            (([4] : List ℚ).getD i 0)).1
            (imgW.pix2geo (([3] : List ℚ).getD i 0)
              (([4] : List ℚ).getD i 0)).2).1) ∧
      (prepare_first_guess LW [3] [4] imgW [] [] imgW [] [] 35 5 20 50
          true).2.1.getD i none
        = some ((imgW.geo2pix (imgW.pix2geo (([3] : List ℚ).getD i 0)
            (([4] : List ℚ).getD i 0)).1
            (imgW.pix2geo (([3] : List ℚ).getD i 0)
              (([4] : List ℚ).getD i 0)).2).2) :=
  prepare_first_guess_fallback LW [3] [4] imgW [] [] imgW [] [] 35 5 20 50
    true (by decide)

/-- The two clamping passes land every number in `[min_border, max_border]`
when that interval is nonempty. -/
theorem clamp_pair_bounds (v minb maxb : ℚ) (hmm : minb ≤ maxb) :
    minb ≤ (if maxb < (if v < minb then minb else v) then maxb
            else (if v < minb then minb else v)) ∧
    (if maxb < (if v < minb then minb else v) then maxb
     else (if v < minb then minb else v)) ≤ maxb := by
  split_ifs <;> constructor <;> linarith

/-- Every entry of the distance-policy border vector is a number (never the
NaN sentinel). -/
theorem old_border_vec_getD_isSome (L : Libs) (x1 y1 : List ℚ)
    (shape : ℕ × ℕ) (x1_dst y1_dst : List ℚ) (max_border : ℚ) (i : ℕ)
    (hi : i < x1_dst.length) :
    ∃ q, (old_border_vec L x1 y1 shape x1_dst y1_dst max_border).getD i none
      = some q := by
  rw [old_border_vec]
  dsimp only
  rw [getD_range_map _ _ _ _ hi]
  split
  · exact ⟨_, rfl⟩
  · exact ⟨_, rfl⟩

/-- C5: on the non-fallback path, every returned border entry is a number in
`[min_border, max_border]`, under either border policy, whatever NaN pattern
the local interpolation produces — provided the two `griddata` calls share
their NaN pattern (they interpolate different values over the same source
and query geometry), which is what `hNaN` states. -/
theorem prepare_first_guess_border_bounds (L : Libs) (x1_dst y1_dst : List ℚ)
    (n1 : Img) (x1 y1 : List ℚ) (n2 : Img) (x2 y2 : List ℚ)
    (img_size min_fg_pts : ℕ) (min_border max_border : ℚ) (old_border : Bool)
    (hn : min_fg_pts < x1.length) (hmm : min_border ≤ max_border)
    (hNaN : ∀ i < (L.interp_near x1 y1
        (listSub x2 (L.interp_poly x1 y1 x2 y2 x1 y1).1)
        (listSub y2 (L.interp_poly x1 y1 x2 y2 x1 y1).2)
        x1_dst y1_dst).1.length,
      ((L.interp_near x1 y1
          (listSub x2 (L.interp_poly x1 y1 x2 y2 x1 y1).1)
          (listSub y2 (L.interp_poly x1 y1 x2 y2 x1 y1).2)
          x1_dst y1_dst).1.getD i none = none ∨
       (L.interp_near x1 y1
          (listSub x2 (L.interp_poly x1 y1 x2 y2 x1 y1).1)
          (listSub y2 (L.interp_poly x1 y1 x2 y2 x1 y1).2)
          x1_dst y1_dst).2.getD i none = none) →
      (L.interp_near x1 y1 x2 y2 x1_dst y1_dst).2.getD i none = none) :
    ∀ i < (prepare_first_guess L x1_dst y1_dst n1 x1 y1 n2 x2 y2 img_size
        min_fg_pts min_border max_border old_border).2.2.length,
    ∃ q, (prepare_first_guess L x1_dst y1_dst n1 x1 y1 n2 x2 y2 img_size
        min_fg_pts min_border max_border old_border).2.2.getD i none = some q ∧
      min_border ≤ q ∧ q ≤ max_border := by
  rw [prepare_first_guess, if_pos hn]
  dsimp only
  intro i hi
  rw [List.length_map, List.length_range] at hi
  rw [getD_range_map _ _ _ _ hi]
  by_cases hy : (L.interp_near x1 y1 x2 y2 x1_dst y1_dst).2.getD i none = none
  · rw [if_pos hy]
    exact ⟨max_border, rfl, hmm, le_refl _⟩
  · rw [if_neg hy]
    have hi1 : i < ((if old_border = true then
        old_border_vec L x1 y1 (n1.rows, n1.cols) x1_dst y1_dst max_border
      else
        (List.range (L.interp_near x1 y1
            (listSub x2 (L.interp_poly x1 y1 x2 y2 x1 y1).1)
            (listSub y2 (L.interp_poly x1 y1 x2 y2 x1 y1).2)
            x1_dst y1_dst).1.length).map (fun j =>
          liftNaN2 L.np_hypot
            ((L.interp_near x1 y1
              (listSub x2 (L.interp_poly x1 y1 x2 y2 x1 y1).1)
              (listSub y2 (L.interp_poly x1 y1 x2 y2 x1 y1).2)
              x1_dst y1_dst).1.getD j none)
            ((L.interp_near x1 y1
              (listSub x2 (L.interp_poly x1 y1 x2 y2 x1 y1).1)
              (listSub y2 (L.interp_poly x1 y1 x2 y2 x1 y1).2)
              x1_dst y1_dst).2.getD j none))) : List (Option ℚ)).length := by
      simpa using hi
    rcases hb0 : ((if old_border = true then
        old_border_vec L x1 y1 (n1.rows, n1.cols) x1_dst y1_dst max_border
      else
        (List.range (L.interp_near x1 y1
            (listSub x2 (L.interp_poly x1 y1 x2 y2 x1 y1).1)
            (listSub y2 (L.interp_poly x1 y1 x2 y2 x1 y1).2)
            x1_dst y1_dst).1.length).map (fun j =>
          liftNaN2 L.np_hypot
            ((L.interp_near x1 y1
              (listSub x2 (L.interp_poly x1 y1 x2 y2 x1 y1).1)
              (listSub y2 (L.interp_poly x1 y1 x2 y2 x1 y1).2)
              x1_dst y1_dst).1.getD j none)
            ((L.interp_near x1 y1
              (listSub x2 (L.interp_poly x1 y1 x2 y2 x1 y1).1)
              (listSub y2 (L.interp_poly x1 y1 x2 y2 x1 y1).2)
              x1_dst y1_dst).2.getD j none))) : List (Option ℚ)).getD i none
      with _ | v
    · -- the pre-clamp border is NaN at i: only possible on the error policy,
      -- and then the hNaN coupling contradicts hy
      exfalso
      revert hi1 hb0
      cases old_border with
      | true =>
          intro hi1 hb0
          rw [if_pos rfl] at hi1 hb0
          rcases old_border_vec_getD_isSome L x1 y1 (n1.rows, n1.cols) x1_dst
            y1_dst max_border i (by simpa [old_border_vec] using hi1) with
            ⟨q, hq⟩
          rw [hq] at hb0
          exact Option.noConfusion hb0
      | false =>
          intro hi1 hb0
          rw [if_neg Bool.false_ne_true] at hi1 hb0
          rw [List.length_map, List.length_range] at hi1
          rw [getD_range_map _ _ _ _ hi1] at hb0
          apply hy
          apply hNaN i hi1
          revert hb0
          unfold liftNaN2
          rcases (L.interp_near x1 y1
              (listSub x2 (L.interp_poly x1 y1 x2 y2 x1 y1).1)
              (listSub y2 (L.interp_poly x1 y1 x2 y2 x1 y1).2)
              x1_dst y1_dst).1.getD i none with _ | a
          · intro _; exact Or.inl rfl
          · rcases (L.interp_near x1 y1
                (listSub x2 (L.interp_poly x1 y1 x2 y2 x1 y1).1)
                (listSub y2 (L.interp_poly x1 y1 x2 y2 x1 y1).2)
                x1_dst y1_dst).2.getD i none with _ | b
            · intro _; exact Or.inr rfl
            · intro hb0; exact Option.noConfusion hb0
    · -- the pre-clamp border is the number v: the two clamps bound it
      rw [getD_map_of_lt _ _ _ none _ (by simpa using hi1),
        getD_map_of_lt _ _ _ none _ (by simpa using hi1), hb0]
      refine ⟨_, rfl, clamp_pair_bounds v min_border max_border hmm⟩

/-- Witness for C5 at a concrete input on the error-policy path, read at
the first (and only) border entry. -/
theorem prepare_first_guess_border_bounds_w :
    ∃ q, (prepare_first_guess LW [6] [7] imgW [0, 0, 0, 0, 0, 0]
        [0, 0, 0, 0, 0, 0] imgW [0, 0, 0, 0, 0, 0] [0, 0, 0, 0, 0, 0] 35 5
        20 50 false).2.2.getD 0 none = some q ∧ 20 ≤ q ∧ q ≤ 50 :=
  prepare_first_guess_border_bounds LW [6] [7] imgW [0, 0, 0, 0, 0, 0]
    [0, 0, 0, 0, 0, 0] imgW [0, 0, 0, 0, 0, 0] [0, 0, 0, 0, 0, 0] 35 5 20 50
    false (by decide) (by norm_num)
    (by with_unfolding_all decide) 0 (by with_unfolding_all decide)

/-- The int16 wrap is the identity inside the int16 range. -/
theorem wrap16_eq_self (z : ℤ) (h0 : 0 ≤ z) (h1 : z < 32768) :
    wrap16 z = z := by
  unfold wrap16
  omega

/-- C9 (counterexample to the claim as stated): the distance-policy border
samples the distance image at the `astype(np.int16)`-TRUNCATED pixel
location, not at the ROUNDED one.  Concretely, with the single keypoint
`(0, 0)` on a 1x2 image — whose genuine Euclidean distance transform the
`LW.edt` oracle returns, as the `isEDT` conjunct certifies — the query point
`x = 9/10, y = 0` samples pixel column 0 (value 0) while rounding would
sample column 1 (value 1). -/
theorem old_border_vec_rounded_cx :
    isEDT [0] [0] (1, 2) (get_distance_to_nearest_keypoint LW [0] [0] (1, 2)) ∧
    old_border_vec LW [0] [0] (1, 2) [9/10] [0] 50
      ≠ old_border_vec_rounded LW [0] [0] (1, 2) [9/10] [0] 50 := by
  constructor
  · refine ⟨rfl, rfl, ?_⟩
    intro r hr c hc
    interval_cases r <;> interval_cases c <;>
      constructor <;> with_unfolding_all decide
  · with_unfolding_all decide

/-- C9 (amended): under the distance policy, an in-bounds query point's
border is the Euclidean-distance-transform value — the nonnegative number
whose square is the minimal squared distance to the cast keypoint pixels —
sampled at the query point's TRUNCATED (`astype(np.int16)`) pixel location,
and every out-of-bounds query point receives `max_border`.  The image shape
must fit the int16 cast for the truncated location to be meaningful. -/
theorem old_border_vec_trunc (L : Libs) (x1 y1 : List ℚ) (shape : ℕ × ℕ)
    (x1_dst y1_dst : List ℚ) (max_border : ℚ)
    (hE : isEDT x1 y1 shape (get_distance_to_nearest_keypoint L x1 y1 shape))
    (hr16 : shape.1 ≤ 32768) (hc16 : shape.2 ≤ 32768)
    (i : ℕ) (hi : i < x1_dst.length) :
    ((0 ≤ x1_dst.getD i 0 ∧ x1_dst.getD i 0 < (shape.2 : ℚ) ∧
      0 ≤ y1_dst.getD i 0 ∧ y1_dst.getD i 0 < (shape.1 : ℚ)) →
      ∃ q, (old_border_vec L x1 y1 shape x1_dst y1_dst max_border).getD i none
          = some q ∧ 0 ≤ q ∧
        q ^ 2 = (sqDistMin (keyPixels x1 y1) (int_trunc (y1_dst.getD i 0))
          (int_trunc (x1_dst.getD i 0)) : ℚ)) ∧
    (¬(0 ≤ x1_dst.getD i 0 ∧ x1_dst.getD i 0 < (shape.2 : ℚ) ∧
       0 ≤ y1_dst.getD i 0 ∧ y1_dst.getD i 0 < (shape.1 : ℚ)) →
      (old_border_vec L x1 y1 shape x1_dst y1_dst max_border).getD i none
        = some max_border) := by
  rw [old_border_vec]
  dsimp only
  rw [getD_range_map _ _ _ _ hi]
  constructor
  · intro hin
    rw [if_pos hin]
    rcases hin with ⟨hx0, hxc, hy0, hyr⟩
    have htx : int_trunc (x1_dst.getD i 0) = ⌊x1_dst.getD i 0⌋ := by
      rw [int_trunc, if_neg (not_lt.mpr hx0)]
    have hty : int_trunc (y1_dst.getD i 0) = ⌊y1_dst.getD i 0⌋ := by
      rw [int_trunc, if_neg (not_lt.mpr hy0)]
    have hfx0 : 0 ≤ ⌊x1_dst.getD i 0⌋ := Int.floor_nonneg.mpr hx0
    have hfy0 : 0 ≤ ⌊y1_dst.getD i 0⌋ := Int.floor_nonneg.mpr hy0
    have hfxc : ⌊x1_dst.getD i 0⌋ < (shape.2 : ℤ) := by
      rw [Int.floor_lt]
      exact_mod_cast hxc
    have hfyr : ⌊y1_dst.getD i 0⌋ < (shape.1 : ℤ) := by
      rw [Int.floor_lt]
      exact_mod_cast hyr
    have hwx : py_int16 (x1_dst.getD i 0) = ⌊x1_dst.getD i 0⌋ := by
      rw [py_int16, htx, wrap16_eq_self _ hfx0 (by omega)]
    have hwy : py_int16 (y1_dst.getD i 0) = ⌊y1_dst.getD i 0⌋ := by
      rw [py_int16, hty, wrap16_eq_self _ hfy0 (by omega)]
    have hrn : (py_int16 (y1_dst.getD i 0)).toNat < shape.1 := by
      rw [hwy]; omega
    have hcn : (py_int16 (x1_dst.getD i 0)).toNat < shape.2 := by
      rw [hwx]; omega
    rcases hE with ⟨_, _, hEv⟩
    rcases hEv _ hrn _ hcn with ⟨hnn, hsq⟩
    refine ⟨_, rfl, hnn, ?_⟩
    rw [hsq, htx, hty]
    congr 2
    · rw [hwy]; omega
    · rw [hwx]; omega
  · intro hout
    rw [if_neg hout]

/-- Witness for the amended C9 at the concrete distance-transform input. -/
theorem old_border_vec_trunc_w :
    ((0 ≤ (([9/10] : List ℚ).getD 0 0) ∧
      (([9/10] : List ℚ).getD 0 0) < ((2 : ℕ) : ℚ) ∧
      0 ≤ (([0] : List ℚ).getD 0 0) ∧
      (([0] : List ℚ).getD 0 0) < ((1 : ℕ) : ℚ)) →
      ∃ q, (old_border_vec LW [0] [0] (1, 2) [9/10] [0] 50).getD 0 none
          = some q ∧ 0 ≤ q ∧
        q ^ 2 = (sqDistMin (keyPixels [0] [0])
          (int_trunc (([0] : List ℚ).getD 0 0))
          (int_trunc (([9/10] : List ℚ).getD 0 0)) : ℚ)) ∧
    (¬(0 ≤ (([9/10] : List ℚ).getD 0 0) ∧
       (([9/10] : List ℚ).getD 0 0) < ((2 : ℕ) : ℚ) ∧
       0 ≤ (([0] : List ℚ).getD 0 0) ∧
       (([0] : List ℚ).getD 0 0) < ((1 : ℕ) : ℚ)) →
      (old_border_vec LW [0] [0] (1, 2) [9/10] [0] 50).getD 0 none
        = some 50) :=
  old_border_vec_trunc LW [0] [0] (1, 2) [9/10] [0] 50
    (by
      refine ⟨rfl, rfl, ?_⟩
      intro r hr c hc
      interval_cases r <;> interval_cases c <;>
        constructor <;> with_unfolding_all decide)
    (by decide) (by decide) 0 (by decide)

/-- Looking up a completed task's index finds its own result, whatever the
completion order. -/
theorem lookup_map_self {α : Type} (f : ℕ → α) (s : List ℕ) (i : ℕ)
    (h : i ∈ s) :
    (s.map (fun j => (j, f j))).lookup i = some (f i) := by
  induction s with
  | nil => simp at h
  | cons j t ih =>
      by_cases hij : i = j
      · subst hij; simp [List.lookup]
      · have hbeq : (i == j) = false := by simpa using hij
        simp only [List.map_cons, List.lookup, hbeq]
        exact ih (by rcases List.mem_cons.mp h with h' | h' <;>
          [exact absurd h' hij; exact h'])

/-- The pool gather equals the in-order sequential map for any completion
order that is a permutation of the task indices. -/
theorem pool_map_perm {α : Type} (junk : α) (f : ℕ → α) (n : ℕ)
    (s : List ℕ) (hp : s.Perm (List.range n)) :
    pool_map junk f n s = (List.range n).map f := by
  simp only [pool_map]
  apply List.map_congr_left
  intro i hi
  rw [lookup_map_self f s i (hp.mem_iff.mpr hi)]
  rfl

/-- `masked_assign` preserves the length of the target array. -/
theorem masked_assign_length (y : List (Option ℚ)) :
    ∀ (g : List Bool) (d : List (Option ℚ)),
    (masked_assign y g d).length = y.length := by
  induction y with
  | nil => intro g d; cases g <;> rfl
  | cons a ys ih =>
      intro g d
      rcases g with _ | ⟨b, gs⟩
      · simpa [masked_assign] using ih [] d
      · cases b
        · simpa [masked_assign] using ih gs d
        · rcases d with _ | ⟨e, ds⟩
          · simpa [masked_assign] using ih gs []
          · simpa [masked_assign] using ih gs ds

/-- Positions where the mask is false keep the target's value, whatever the
data. -/
theorem masked_assign_getD_false (y : List (Option ℚ)) :
    ∀ (g : List Bool) (d : List (Option ℚ)) (i : ℕ) (dd : Option ℚ),
    g.getD i false = false →
    (masked_assign y g d).getD i dd = y.getD i dd := by
  induction y with
  | nil => intro g d i dd _; cases g <;> rfl
  | cons a ys ih =>
      intro g d i dd hg
      rcases g with _ | ⟨b, gs⟩
      · rcases i with _ | i
        · rfl
        · simpa [masked_assign, List.getD_cons_succ] using
            ih [] d i dd (by simp)
      · cases b
        · rcases i with _ | i
          · rfl
          · simpa [masked_assign, List.getD_cons_succ] using
              ih gs d i dd (by simpa [List.getD_cons_succ] using hg)
        · rcases i with _ | i
          · simp [List.getD_cons_zero] at hg
          · rcases d with _ | ⟨e, ds⟩
            · simpa [masked_assign, List.getD_cons_succ] using
                ih gs [] i dd (by simpa [List.getD_cons_succ] using hg)
            · simpa [masked_assign, List.getD_cons_succ] using
                ih gs ds i dd (by simpa [List.getD_cons_succ] using hg)

/-- Every entry of a replicated list reads back as the replicated value. -/
theorem getD_replicate_self {α : Type} (a : α) :
    ∀ (n i : ℕ), (List.replicate n a).getD i a = a := by
  intro n
  induction n with
  | zero => intro i; rfl
  | succ n ih =>
      intro i
      rcases i with _ | i
      · rfl
      · simpa [List.replicate_succ, List.getD_cons_succ] using ih i

/-- Members of `maskIndices g k` lie beyond the offset, inside the mask, at
a true position. -/
theorem mem_maskIndices_true : ∀ (g : List Bool) (k i : ℕ),
    i ∈ maskIndices g k →
    k ≤ i ∧ i - k < g.length ∧ g.getD (i - k) false = true := by
  intro g
  induction g with
  | nil => intro k i h; simp [maskIndices] at h
  | cons b gs ih =>
      intro k i h
      cases b
      · rcases ih (k + 1) i (by simpa [maskIndices] using h) with
          ⟨h1, h2, h3⟩
        refine ⟨by omega, by simp; omega, ?_⟩
        have : i - k = (i - (k + 1)) + 1 := by omega
        rw [this, List.getD_cons_succ]
        exact h3
      · rw [maskIndices] at h
        rcases List.mem_cons.mp h with h' | h'
        · subst h'
          exact ⟨le_refl _, by simp, by simp⟩
        · rcases ih (k + 1) i h' with ⟨h1, h2, h3⟩
          refine ⟨by omega, by simp; omega, ?_⟩
          have : i - k = (i - (k + 1)) + 1 := by omega
          rw [this, List.getD_cons_succ]
          exact h3

/-- The mask selects exactly as many elements as it has true entries. -/
theorem maskIndices_length : ∀ (g : List Bool) (k : ℕ),
    (maskIndices g k).length = countTrue g := by
  intro g
  induction g with
  | nil => intro k; rfl
  | cons b gs ih =>
      intro k
      cases b
      · simpa [maskIndices, countTrue, List.filter] using ih (k + 1)
      · simpa [maskIndices, countTrue, List.filter] using ih (k + 1)

/-- A mask with no true entry selects nothing. -/
theorem maskIndices_eq_nil (g : List Bool) (k : ℕ) (h : countTrue g = 0) :
    maskIndices g k = [] :=
  List.eq_nil_of_length_eq_zero (by rw [maskIndices_length]; exact h)

/-- Boolean-mask selection reads the original array at the selected
indices: the `j`-th selected element is the original element at the `j`-th
mask-true index. -/
theorem mask_select_getD {α : Type} :
    ∀ (g : List Bool) (xs : List α) (k j : ℕ) (d : α),
    xs.length = g.length → j < (maskIndices g k).length →
    k ≤ (maskIndices g k).getD j 0 ∧
    (mask_select g xs).getD j d = xs.getD ((maskIndices g k).getD j 0 - k) d
    := by
  intro g
  induction g with
  | nil => intro xs k j d _ hj; simp [maskIndices] at hj
  | cons b gs ih =>
      intro xs k j d hlen hj
      rcases xs with _ | ⟨x, xs'⟩
      · simp at hlen
      · have hlen' : xs'.length = gs.length := by simpa using hlen
        cases b
        · rw [maskIndices] at hj ⊢
          rcases ih xs' (k + 1) j d hlen' hj with ⟨h1, h2⟩
          refine ⟨by omega, ?_⟩
          rw [show mask_select (false :: gs) (x :: xs') =
            mask_select gs xs' from rfl, h2]
          have : (maskIndices gs (k + 1)).getD j 0 - k
              = ((maskIndices gs (k + 1)).getD j 0 - (k + 1)) + 1 := by omega
          rw [this, List.getD_cons_succ]
        · rw [maskIndices] at hj ⊢
          rcases j with _ | j
          · exact ⟨by simp, by simp [mask_select]⟩
          · have hj' : j < (maskIndices gs (k + 1)).length := by
              simpa using hj
            rcases ih xs' (k + 1) j d hlen' hj' with ⟨h1, h2⟩
            refine ⟨by simpa [List.getD_cons_succ] using (by omega : k ≤
              (maskIndices gs (k + 1)).getD j 0), ?_⟩
            rw [show mask_select (true :: gs) (x :: xs') =
              x :: mask_select gs xs' from rfl]
            rw [List.getD_cons_succ, List.getD_cons_succ, h2]
            have : (maskIndices gs (k + 1)).getD j 0 - k
                = ((maskIndices gs (k + 1)).getD j 0 - (k + 1)) + 1 := by
              omega
            rw [this, List.getD_cons_succ]

/-- One entry of the validity mask is true exactly when the Prop-level
window conditions hold for that query point's data. -/
theorem compute_gpi_getD_true_iff (L : Libs) (margin : ℚ) (img_size : ℕ)
    (n1 n2 : Img) (x1_dst y1_dst : List ℚ) (xf yf bd : List (Option ℚ))
    (i : ℕ) (hi : i < x1_dst.length) :
    (compute_gpi L margin img_size n1 n2 x1_dst y1_dst xf yf bd).getD i false
        = true ↔
    window_conditions L margin img_size n1 n2 (x1_dst.getD i 0)
      (y1_dst.getD i 0) (xf.getD i none) (yf.getD i none) (bd.getD i none)
    := by
  rw [compute_gpi]
  dsimp only
  rw [getD_range_map _ _ _ _ hi]
  rcases hxf : xf.getD i none with _ | xv <;>
    rcases hyf : yf.getD i none with _ | yv <;>
      rcases hbd : bd.getD i none with _ | bv <;>
        simp [window_conditions, nanGt, nanLt, oSub, oAdd, liftNaN2,
          and_assoc]

/-- The length of the validity mask is the query-grid length. -/
theorem pm_gpi_length (L : Libs) (cfg : PMConfig) (margin : ℚ)
    (img_size : ℕ) (n1 : Img) (x1 y1 : List ℚ) (n2 : Img) (x2 y2 : List ℚ)
    (lon lat : List ℚ) :
    (pm_gpi L cfg margin img_size n1 x1 y1 n2 x2 y2 lon lat).length
      = lon.length := by
  simp [pm_gpi, compute_gpi, pm_dst, transform_geo2pix]

/-- C8: a query point whose mask entry is false is never dispatched; every
dispatched index has a true mask entry, which holds exactly when both
padded windows lie strictly inside their images; and each task's shared
per-point inputs are the original arrays at the dispatched index. -/
theorem pattern_matching_valid_mask (L : Libs) (cfg : PMConfig) (margin : ℚ)
    (img_size : ℕ) (n1 : Img) (x1 y1 : List ℚ) (n2 : Img) (x2 y2 : List ℚ)
    (lon lat : List ℚ) :
    (∀ i, (pm_gpi L cfg margin img_size n1 x1 y1 n2 x2 y2 lon lat).getD i
        false = false →
      i ∉ pm_dispatched L cfg margin img_size n1 x1 y1 n2 x2 y2 lon lat) ∧
    (∀ i ∈ pm_dispatched L cfg margin img_size n1 x1 y1 n2 x2 y2 lon lat,
      i < lon.length ∧
      window_conditions L margin img_size n1 n2
        ((pm_dst n1 lon lat).1.getD i 0) ((pm_dst n1 lon lat).2.getD i 0)
        ((pm_fg L cfg img_size n1 x1 y1 n2 x2 y2 lon lat).1.getD i none)
        ((pm_fg L cfg img_size n1 x1 y1 n2 x2 y2 lon lat).2.1.getD i none)
        ((pm_fg L cfg img_size n1 x1 y1 n2 x2 y2 lon lat).2.2.getD i none))
    ∧
    (∀ j < countTrue (pm_gpi L cfg margin img_size n1 x1 y1 n2 x2 y2 lon
        lat),
      (pm_shared L cfg margin img_size n1 x1 y1 n2 x2 y2 lon lat).x1d.getD
          j 0
        = (pm_dst n1 lon lat).1.getD
          ((pm_dispatched L cfg margin img_size n1 x1 y1 n2 x2 y2 lon
            lat).getD j 0) 0 ∧
      (pm_shared L cfg margin img_size n1 x1 y1 n2 x2 y2 lon lat).y1d.getD
          j 0
        = (pm_dst n1 lon lat).2.getD
          ((pm_dispatched L cfg margin img_size n1 x1 y1 n2 x2 y2 lon
            lat).getD j 0) 0) := by
  have hlen1 : (pm_dst n1 lon lat).1.length
      = (pm_gpi L cfg margin img_size n1 x1 y1 n2 x2 y2 lon lat).length := by
    rw [pm_gpi_length]
    simp [pm_dst, transform_geo2pix]
  have hlen2 : (pm_dst n1 lon lat).2.length
      = (pm_gpi L cfg margin img_size n1 x1 y1 n2 x2 y2 lon lat).length := by
    rw [pm_gpi_length]
    simp [pm_dst, transform_geo2pix]
  refine ⟨?_, ?_, ?_⟩
  · intro i hfalse hmem
    rcases mem_maskIndices_true _ 0 i hmem with ⟨_, _, htrue⟩
    rw [Nat.sub_zero] at htrue
    rw [hfalse] at htrue
    exact Bool.noConfusion htrue
  · intro i hmem
    rcases mem_maskIndices_true _ 0 i hmem with ⟨_, hlt, htrue⟩
    rw [Nat.sub_zero] at hlt htrue
    have hilon : i < lon.length := by
      rw [← pm_gpi_length L cfg margin img_size n1 x1 y1 n2 x2 y2 lon lat]
      exact hlt
    have hidst : i < (pm_dst n1 lon lat).1.length := by
      rw [hlen1]; exact hlt
    refine ⟨hilon, ?_⟩
    have htrue' : (compute_gpi L margin img_size n1 n2 (pm_dst n1 lon lat).1
        (pm_dst n1 lon lat).2
        (pm_fg L cfg img_size n1 x1 y1 n2 x2 y2 lon lat).1
        (pm_fg L cfg img_size n1 x1 y1 n2 x2 y2 lon lat).2.1
        (pm_fg L cfg img_size n1 x1 y1 n2 x2 y2 lon lat).2.2).getD i false
        = true := htrue
    exact (compute_gpi_getD_true_iff L margin img_size n1 n2 _ _ _ _ _ i
      hidst).mp htrue'
  · intro j hj
    have hj' : j < (maskIndices (pm_gpi L cfg margin img_size n1 x1 y1 n2 x2
        y2 lon lat) 0).length := by
      rw [maskIndices_length]; exact hj
    constructor
    · have := (mask_select_getD (pm_gpi L cfg margin img_size n1 x1 y1 n2 x2
        y2 lon lat) (pm_dst n1 lon lat).1 0 j 0 hlen1 hj').2
      rw [Nat.sub_zero] at this
      exact this
    · have := (mask_select_getD (pm_gpi L cfg margin img_size n1 x1 y1 n2 x2
        y2 lon lat) (pm_dst n1 lon lat).2 0 j 0 hlen2 hj').2
      rw [Nat.sub_zero] at this
      exact this

/-- Witness for C8: at the concrete all-excluded instance, the single query
point has a false mask entry and is not dispatched. -/
theorem pattern_matching_valid_mask_w :
    0 ∉ pm_dispatched LW cfgW 0 35 imgW [] [] imgW [] [] gridW.data
      gridW.data :=
  (pattern_matching_valid_mask LW cfgW 0 35 imgW [] [] imgW [] [] gridW.data
    gridW.data).1 0 (by with_unfolding_all decide)

/-- C2: for the same inputs, the worker-pool run (`threads ≠ 0`) under any
task completion order that is a permutation of the task indices produces
exactly the result of the sequential run (`threads = 0`, ascending index
order): the gather is keyed by original query-point index, so the grids
agree elementwise (equality on the `Option ℚ` model is NaN-aware). -/
theorem pattern_matching_threads_equiv (L : Libs) (cfg : PMConfig)
    (lon1_dst lat1_dst : QGrid) (n1 : Img) (x1 y1 : List ℚ) (n2 : Img)
    (x2 y2 : List ℚ) (margin : ℚ) (img_size : ℕ) (threads : ℕ)
    (schedule schedule0 : List ℕ) (ht : threads ≠ 0)
    (hp : schedule.Perm (List.range (countTrue (pm_gpi L cfg margin img_size
      n1 x1 y1 n2 x2 y2 lon1_dst.data lat1_dst.data)))) :
    pattern_matching L cfg lon1_dst lat1_dst n1 x1 y1 n2 x2 y2 margin
      img_size threads schedule
      = pattern_matching L cfg lon1_dst lat1_dst n1 x1 y1 n2 x2 y2 margin
        img_size 0 schedule0 := by
  simp only [pattern_matching]
  rw [if_neg ht, pool_map_perm _ _ _ _ hp]
  rfl

/-- Witness for C2 at a concrete instance (pool of 5 workers, completion
order equal to index order, which is trivially a permutation). -/
theorem pattern_matching_threads_equiv_w :
    pattern_matching LW cfgW gridW gridW imgW [] [] imgW [] [] 0 35 5
      (List.range (countTrue (pm_gpi LW cfgW 0 35 imgW [] [] imgW [] []
        gridW.data gridW.data)))
      = pattern_matching LW cfgW gridW gridW imgW [] [] imgW [] [] 0 35 0 []
    :=
  pattern_matching_threads_equiv LW cfgW gridW gridW imgW [] [] imgW [] []
    0 35 5 _ [] (by decide) (List.Perm.refl _)

/-- C10: if the validity mask excludes every query point, `pattern_matching`
still returns normally with all seven grids allocated at the query-grid
shape and filled entirely with NaN, and no point is dispatched to the
matcher. -/
theorem pattern_matching_all_excluded (L : Libs) (cfg : PMConfig)
    (lon1_dst lat1_dst : QGrid) (n1 : Img) (x1 y1 : List ℚ) (n2 : Img)
    (x2 y2 : List ℚ) (margin : ℚ) (img_size : ℕ) (threads : ℕ)
    (schedule : List ℕ)
    (h0 : countTrue (pm_gpi L cfg margin img_size n1 x1 y1 n2 x2 y2
      lon1_dst.data lat1_dst.data) = 0) :
    pattern_matching L cfg lon1_dst lat1_dst n1 x1 y1 n2 x2 y2 margin
        img_size threads schedule
      = .ok ⟨allNaNGrid (lon1_dst.rows, lon1_dst.cols),
             allNaNGrid (lon1_dst.rows, lon1_dst.cols),
             allNaNGrid (lon1_dst.rows, lon1_dst.cols),
             allNaNGrid (lon1_dst.rows, lon1_dst.cols),
             allNaNGrid (lon1_dst.rows, lon1_dst.cols),
             allNaNGrid (lon1_dst.rows, lon1_dst.cols),
             allNaNGrid (lon1_dst.rows, lon1_dst.cols)⟩ ∧
    pm_dispatched L cfg margin img_size n1 x1 y1 n2 x2 y2 lon1_dst.data
      lat1_dst.data = [] := by
  refine ⟨?_, maskIndices_eq_nil _ 0 h0⟩
  simp only [pattern_matching, h0]
  simp [pool_map, seqExcept]

/-- Witness for C10 at a concrete instance whose single query point fails
the window bounds. -/
theorem pattern_matching_all_excluded_w :
    pattern_matching LW cfgW gridW gridW imgW [] [] imgW [] [] 0 35 5 []
      = .ok ⟨allNaNGrid (gridW.rows, gridW.cols),
             allNaNGrid (gridW.rows, gridW.cols),
             allNaNGrid (gridW.rows, gridW.cols),
             allNaNGrid (gridW.rows, gridW.cols),
             allNaNGrid (gridW.rows, gridW.cols),
             allNaNGrid (gridW.rows, gridW.cols),
             allNaNGrid (gridW.rows, gridW.cols)⟩ ∧
    pm_dispatched LW cfgW 0 35 imgW [] [] imgW [] [] gridW.data gridW.data
      = [] :=
  pattern_matching_all_excluded LW cfgW gridW gridW imgW [] [] imgW [] []
    0 35 5 [] (by with_unfolding_all decide)

/-- C6: whenever `pattern_matching` returns, all seven grids carry the
query grid's shape with one flat entry per query cell, and every cell the
validity mask excluded is NaN in all seven grids simultaneously (a failed
match never reaches the grids: it raises, see C1, so the call does not
return). -/
theorem pattern_matching_output_grids (L : Libs) (cfg : PMConfig)
    (lon1_dst lat1_dst : QGrid) (n1 : Img) (x1 y1 : List ℚ) (n2 : Img)
    (x2 y2 : List ℚ) (margin : ℚ) (img_size : ℕ) (threads : ℕ)
    (schedule : List ℕ) (out : PMOut)
    (h : pattern_matching L cfg lon1_dst lat1_dst n1 x1 y1 n2 x2 y2 margin
      img_size threads schedule = .ok out) :
    (out.u.shape = (lon1_dst.rows, lon1_dst.cols) ∧
     out.v.shape = (lon1_dst.rows, lon1_dst.cols) ∧
     out.a.shape = (lon1_dst.rows, lon1_dst.cols) ∧
     out.r.shape = (lon1_dst.rows, lon1_dst.cols) ∧
     out.h.shape = (lon1_dst.rows, lon1_dst.cols) ∧
     out.lon2.shape = (lon1_dst.rows, lon1_dst.cols) ∧
     out.lat2.shape = (lon1_dst.rows, lon1_dst.cols)) ∧
    (out.u.data.length = lon1_dst.rows * lon1_dst.cols ∧
     out.v.data.length = lon1_dst.rows * lon1_dst.cols ∧
     out.a.data.length = lon1_dst.rows * lon1_dst.cols ∧
     out.r.data.length = lon1_dst.rows * lon1_dst.cols ∧
     out.h.data.length = lon1_dst.rows * lon1_dst.cols ∧
     out.lon2.data.length = lon1_dst.rows * lon1_dst.cols ∧
     out.lat2.data.length = lon1_dst.rows * lon1_dst.cols) ∧
    (∀ i, (pm_gpi L cfg margin img_size n1 x1 y1 n2 x2 y2 lon1_dst.data
        lat1_dst.data).getD i false = false →
      out.u.data.getD i none = none ∧ out.v.data.getD i none = none ∧
      out.a.data.getD i none = none ∧ out.r.data.getD i none = none ∧
      out.h.data.getD i none = none ∧ out.lon2.data.getD i none = none ∧
      out.lat2.data.getD i none = none) := by
  simp only [pattern_matching] at h
  split at h
  · exact Except.noConfusion h
  · split at h
    · injection h with h'
      subst h'
      refine ⟨⟨rfl, rfl, rfl, rfl, rfl, rfl, rfl⟩, ?_, ?_⟩
      · simp [allNaNGrid]
      · intro i _
        simp only [allNaNGrid]
        exact ⟨getD_replicate_self none _ i, getD_replicate_self none _ i,
          getD_replicate_self none _ i, getD_replicate_self none _ i,
          getD_replicate_self none _ i, getD_replicate_self none _ i,
          getD_replicate_self none _ i⟩
    · injection h with h'
      subst h'
      refine ⟨⟨rfl, rfl, rfl, rfl, rfl, rfl, rfl⟩, ?_, ?_⟩
      · simp only [fill_gpi]
        refine ⟨?_, ?_, ?_, ?_, ?_, ?_, ?_⟩ <;>
          rw [masked_assign_length, List.length_replicate]
      · intro i hfalse
        simp only [fill_gpi]
        refine ⟨?_, ?_, ?_, ?_, ?_, ?_, ?_⟩ <;>
          rw [masked_assign_getD_false _ _ _ _ _ hfalse] <;>
          exact getD_replicate_self none _ i

/-- Witness for C6 at the concrete all-excluded instance, whose returned
grids are computed by evaluation. -/
theorem pattern_matching_output_grids_w :
    ((allNaNGrid (1, 1)).shape = (gridW.rows, gridW.cols) ∧
     (allNaNGrid (1, 1)).shape = (gridW.rows, gridW.cols) ∧
     (allNaNGrid (1, 1)).shape = (gridW.rows, gridW.cols) ∧
     (allNaNGrid (1, 1)).shape = (gridW.rows, gridW.cols) ∧
     (allNaNGrid (1, 1)).shape = (gridW.rows, gridW.cols) ∧
     (allNaNGrid (1, 1)).shape = (gridW.rows, gridW.cols) ∧
     (allNaNGrid (1, 1)).shape = (gridW.rows, gridW.cols)) ∧
    ((allNaNGrid (1, 1)).data.length = gridW.rows * gridW.cols ∧
     (allNaNGrid (1, 1)).data.length = gridW.rows * gridW.cols ∧
     (allNaNGrid (1, 1)).data.length = gridW.rows * gridW.cols ∧
     (allNaNGrid (1, 1)).data.length = gridW.rows * gridW.cols ∧
     (allNaNGrid (1, 1)).data.length = gridW.rows * gridW.cols ∧
     (allNaNGrid (1, 1)).data.length = gridW.rows * gridW.cols ∧
     (allNaNGrid (1, 1)).data.length = gridW.rows * gridW.cols) ∧
    (∀ i, (pm_gpi LW cfgW 0 35 imgW [] [] imgW [] [] gridW.data
        gridW.data).getD i false = false →
      (allNaNGrid (1, 1)).data.getD i none = none ∧
      (allNaNGrid (1, 1)).data.getD i none = none ∧
      (allNaNGrid (1, 1)).data.getD i none = none ∧
      (allNaNGrid (1, 1)).data.getD i none = none ∧
      (allNaNGrid (1, 1)).data.getD i none = none ∧
      (allNaNGrid (1, 1)).data.getD i none = none ∧
      (allNaNGrid (1, 1)).data.getD i none = none) :=
  pattern_matching_output_grids LW cfgW gridW gridW imgW [] [] imgW [] []
    0 35 0 [] ⟨allNaNGrid (1, 1), allNaNGrid (1, 1), allNaNGrid (1, 1),
      allNaNGrid (1, 1), allNaNGrid (1, 1), allNaNGrid (1, 1),
      allNaNGrid (1, 1)⟩ (by with_unfolding_all rfl)
